import Mathlib

/-!
Verification of the chrome-cli session daemon (src/src/cli.ts, daemon half).

The daemon keeps one process-wide mutable `state` record: a registry of open
pages, the identifier of the current page, and per-page capture buffers for
console messages and network requests.  This file embeds that state and the
state-manipulating code paths (the getOrCreatePage resolver, the /new-page,
/close-page, /select-page, /console and /network handlers, the disconnect
callback, and the page.on event handler closures) as pure Lean functions,
and proves the specified properties about them.

JavaScript Map objects are embedded as insertion-ordered association lists;
Map.set replaces in place, Map.delete removes the entry, keys().next().value
is the first key in insertion order.  Truthiness of optional strings (where
undefined, null and the empty string are falsy) is modelled explicitly.
-/

namespace ChromeCli

/-- One captured console message: the object pushed by the page.on console
handler, `{type, text, timestamp}`. -/
structure ConsoleMsg where
  type : String
  text : String
  timestamp : Nat
deriving DecidableEq

/-- One captured network request record `{url, method, status, type}`;
`status` is 0 (the pending placeholder) until a response is matched. -/
structure NetworkReq where
  url : String
  method : String
  status : Nat
  type : String
deriving DecidableEq

/-- A page handle as the daemon sees it: `url` is what page.url() returns,
and `valid` is the outcome of the isPageValid probe (whether
page.evaluate(1) succeeds on this handle). -/
structure Page where
  url : String
  valid : Bool
deriving DecidableEq

/-- Lookup in a JS Map embedded as an association list. -/
def mapGet {α : Type} : List (String × α) → String → Option α
  | [], _ => none
  | (k', v) :: rest, k => if k' = k then some v else mapGet rest k

/-- Map.has. -/
def mapHas {α : Type} (m : List (String × α)) (k : String) : Bool :=
  (mapGet m k).isSome

/-- Map.set: replaces the entry in place if the key is present, otherwise
appends a new entry at the end (JS insertion-order semantics). -/
def mapSet {α : Type} : List (String × α) → String → α → List (String × α)
  | [], k, v => [(k, v)]
  | (k', v') :: rest, k, v =>
    if k' = k then (k, v) :: rest else (k', v') :: mapSet rest k v

/-- Map.delete: removes the entry with the given key (if any). -/
def mapDelete {α : Type} : List (String × α) → String → List (String × α)
  | [], _ => []
  | (k', v') :: rest, k => if k' = k then rest else (k', v') :: mapDelete rest k

/-- Map.keys().next().value: the first key in insertion order, if any. -/
def firstKey {α : Type} : List (String × α) → Option String
  | [] => none
  | (k, _) :: _ => some k

/-- The mutable session record of the daemon.  `browser` is omitted: the
claims are about page/buffer state, and connection management is modelled
through the disconnect step.  `subscriptions` records for which registered
page identifiers the page.on console/request/response handlers were
installed; this is Node event-listener state, which lives on the page
objects rather than in the `state` record but is session state all the
same. -/
structure SessionState where
  pages : List (String × Page)
  currentPageId : Option String
  consoleMessages : List (String × List ConsoleMsg)
  networkRequests : List (String × List NetworkReq)
  subscriptions : List String
deriving DecidableEq

/-- The daemon starts with everything empty. -/
def initState : SessionState :=
  { pages := [], currentPageId := none, consoleMessages := [],
    networkRequests := [], subscriptions := [] }

/-- The buffer append used by the console and request handlers:
arr.push(x); if (arr.length > 1000) arr.shift(). -/
def pushBounded {α : Type} (xs : List α) (x : α) : List α :=
  let ys := xs ++ [x]
  if ys.length > 1000 then ys.tail else ys

/-- Body of the page.on console handler closure for registration id `pid`:
read the buffer from the map (a fresh throwaway array if the key is gone,
in which case the push is lost) and push with bounded eviction. -/
def onConsole (st : SessionState) (pid : String) (m : ConsoleMsg) : SessionState :=
  match mapGet st.consoleMessages pid with
  | some messages =>
    { st with consoleMessages := mapSet st.consoleMessages pid (pushBounded messages m) }
  | none => st

/-- Body of the page.on request handler closure: append a record with the
pending status placeholder 0. -/
def onRequest (st : SessionState) (pid : String) (u meth ty : String) : SessionState :=
  match mapGet st.networkRequests pid with
  | some requests =>
    let record : NetworkReq := { url := u, method := meth, status := 0, type := ty }
    { st with networkRequests := mapSet st.networkRequests pid (pushBounded requests record) }
  | none => st

/-- The predicate of the find call in the response handler:
r.url === res.url() && r.status === 0. -/
def isPendingFor (u : String) (r : NetworkReq) : Bool :=
  r.url = u && r.status = 0

/-- requests.find(r =&gt; r.url === u && r.status === 0) followed by the
in-place status write: the first matching record gets the status, all other
records are untouched; no match leaves the list unchanged. -/
def setFirstPending : List NetworkReq → String → Nat → List NetworkReq
  | [], _, _ => []
  | r :: rest, u, s =>
    if isPendingFor u r then { r with status := s } :: rest
    else r :: setFirstPending rest u s

/-- Body of the page.on response handler closure. -/
def onResponse (st : SessionState) (pid : String) (u : String) (s : Nat) : SessionState :=
  match mapGet st.networkRequests pid with
  | some requests =>
    { st with networkRequests := mapSet st.networkRequests pid (setFirstPending requests u s) }
  | none => st

/-- Delivery of one console event emitted by the page registered as `pid`:
the handler body runs only if a subscription was installed for that
registration (page.on was called at registration time). -/
def deliverConsole (st : SessionState) (pid : String) (m : ConsoleMsg) : SessionState :=
  if pid ∈ st.subscriptions then onConsole st pid m else st

/-- Delivery of one request event. -/
def deliverRequest (st : SessionState) (pid : String) (u meth ty : String) : SessionState :=
  if pid ∈ st.subscriptions then onRequest st pid u meth ty else st

/-- Delivery of one response event. -/
def deliverResponse (st : SessionState) (pid : String) (u : String) (s : Nat) : SessionState :=
  if pid ∈ st.subscriptions then onResponse st pid u s else st

/-- Environment of one page-creating step: `now` is Date.now() at the
moment the identifier is minted, `browserPages` is what browser.pages()
returns, `freshPage` is the page browser.newPage() would hand back. -/
structure Env where
  now : Nat
  browserPages : List Page
  freshPage : Page
deriving DecidableEq

/-- The identifier template literal page_ followed by Date.now(). -/
def mkPageId (t : Nat) : String :=
  "page_" ++ Nat.repr t

/-- The digit list (least significant first) that underlies the decimal
rendering of a natural number: like Nat.digits 10 but rendering 0 as a
single zero digit, matching Nat.toDigits. -/
def padDigits (n : Nat) : List Nat :=
  if n = 0 then [0] else Nat.digits 10 n

/-- The reusable-tab test of getOrCreatePage. -/
def isReusableUrl (u : String) : Bool :=
  u = "about:blank" || u = "chrome://newtab/" || u.startsWith "chrome://newtab"

/-- Result of getOrCreatePage: the updated session state plus the returned
page and pageId. -/
structure ResolveOut where
  st : SessionState
  page : Page
  pageId : String
deriving DecidableEq

/-- Creation tail of getOrCreatePage: find a reusable blank/new-tab page or
open a new one, mint page_ plus Date.now(), register it with empty buffers,
make it current, and install the three page.on subscriptions. -/
def createFresh (env : Env) (st : SessionState) : ResolveOut :=
  let reusablePage := env.browserPages.find? (fun p => isReusableUrl p.url)
  let page := reusablePage.getD env.freshPage
  let newPageId := mkPageId env.now
  { st :=
      { st with
        pages := mapSet st.pages newPageId page,
        currentPageId := some newPageId,
        consoleMessages := mapSet st.consoleMessages newPageId [],
        networkRequests := mapSet st.networkRequests newPageId [],
        subscriptions := newPageId :: st.subscriptions },
    page := page, pageId := newPageId }

/-- Middle section of getOrCreatePage: the currentPageId fallback.  The
guard is state.currentPageId && state.pages.has(state.currentPageId), with
JS truthiness on the id. -/
def resolveCurrent (env : Env) (st : SessionState) : ResolveOut :=
  match st.currentPageId with
  | some cid =>
    if cid = "" then createFresh env st
    else
      match mapGet st.pages cid with
      | some page =>
        if page.valid then { st := st, page := page, pageId := cid }
        else
          createFresh env
            { st with pages := mapDelete st.pages cid, currentPageId := none }
      | none => createFresh env st
  | none => createFresh env st

/-- getOrCreatePage(pageId?): explicit id first (guard
pageId && state.pages.has(pageId)), then the current page, then creation;
a handle failing the isPageValid probe is evicted from pages on the way. -/
def getOrCreatePage (env : Env) (st : SessionState) (explicit : Option String) : ResolveOut :=
  match explicit with
  | some pid =>
    if pid = "" then resolveCurrent env st
    else
      match mapGet st.pages pid with
      | some page =>
        if page.valid then { st := st, page := page, pageId := pid }
        else resolveCurrent env { st with pages := mapDelete st.pages pid }
      | none => resolveCurrent env st
  | none => resolveCurrent env st

/-- The POST /new-page handler state effect: browser.newPage(), mint
page_ plus Date.now(), register with empty buffers and make current.  Note
that unlike createFresh this handler installs no page.on subscriptions. -/
def newPageStep (env : Env) (st : SessionState) : SessionState × String :=
  let page := env.freshPage
  let pageId := mkPageId env.now
  ({ st with
      pages := mapSet st.pages pageId page,
      currentPageId := some pageId,
      consoleMessages := mapSet st.consoleMessages pageId [],
      networkRequests := mapSet st.networkRequests pageId [] },
    pageId)

/-- JS a || b on optional strings: undefined/null and the empty string are
falsy. -/
def truthyOr (a : Option String) (b : Option String) : Option String :=
  match a with
  | some s => if s = "" then b else some s
  | none => b

/-- The POST /close-page handler: resolve the target id as
pageId || state.currentPageId; if the guard id && state.pages.has(id)
passes, await page.close() (its success is the `closeOk` input: a throw
jumps to the catch with the state untouched), then delete the registry and
buffer entries and reassign currentPageId from keys().next().value with
the result coerced through || null.  Returns the new state and the
success flag of the JSON response. -/
def closePageStep (st : SessionState) (pageId : Option String) (closeOk : Bool) :
    SessionState × Bool :=
  let idOpt := truthyOr pageId st.currentPageId
  match idOpt with
  | some i =>
    if i ≠ "" ∧ mapHas st.pages i = true then
      if closeOk then
        let st1 :=
          { st with
            pages := mapDelete st.pages i,
            consoleMessages := mapDelete st.consoleMessages i,
            networkRequests := mapDelete st.networkRequests i }
        let st2 :=
          if st1.currentPageId = some i then
            { st1 with currentPageId :=
                match firstKey st1.pages with
                | some k => if k = "" then none else some k
                | none => none }
          else st1
        (st2, true)
      else (st, false)
    else (st, false)
  | none => (st, false)

/-- The POST /select-page handler: set currentPageId only when the id is a
registered key, else a 404 failure. -/
def selectPageStep (st : SessionState) (pageId : String) : SessionState × Bool :=
  if mapHas st.pages pageId then ({ st with currentPageId := some pageId }, true)
  else (st, false)

/-- The browser disconnected callback: clear pages and currentPageId (the
capture buffers are left as they are). -/
def disconnectStep (st : SessionState) : SessionState :=
  { st with pages := [], currentPageId := none }

/-- Shape of the /console and /network responses: the (unchanged) state,
the success flag, the echoed pageId and the returned list. -/
structure QueryOut (ε : Type) where
  st : SessionState
  success : Bool
  pageId : Option String
  items : List ε
deriving DecidableEq

/-- The GET /console handler: id = query.page || state.currentPageId;
messages = id ? map.get(id) || [] : []; always succeeds. -/
def consoleQuery (st : SessionState) (pageId : Option String) : QueryOut ConsoleMsg :=
  let id := truthyOr pageId st.currentPageId
  let messages :=
    match id with
    | some i => if i = "" then [] else (mapGet st.consoleMessages i).getD []
    | none => []
  { st := st, success := true, pageId := id, items := messages }

/-- The GET /network handler, same shape over the request buffers. -/
def networkQuery (st : SessionState) (pageId : Option String) : QueryOut NetworkReq :=
  let id := truthyOr pageId st.currentPageId
  let requests :=
    match id with
    | some i => if i = "" then [] else (mapGet st.networkRequests i).getD []
    | none => []
  { st := st, success := true, pageId := id, items := requests }

/-- One session operation: a command-handler invocation or an asynchronous
event delivery.  Repeated listener installation for one id (possible only
when identifiers collide) is modelled by repeating the event op. -/
inductive Op where
  | resolve (env : Env) (explicit : Option String)
  | newPage (env : Env)
  | closePage (pageId : Option String) (closeOk : Bool)
  | selectPage (pageId : String)
  | disconnect
  | consoleEv (pid : String) (m : ConsoleMsg)
  | requestEv (pid : String) (u meth ty : String)
  | responseEv (pid : String) (u : String) (s : Nat)
  | consoleQ (pageId : Option String)
  | networkQ (pageId : Option String)

/-- State effect of one operation. -/
def applyOp (st : SessionState) : Op → SessionState
  | Op.resolve env e => (getOrCreatePage env st e).st
  | Op.newPage env => (newPageStep env st).1
  | Op.closePage p ok => (closePageStep st p ok).1
  | Op.selectPage p => (selectPageStep st p).1
  | Op.disconnect => disconnectStep st
  | Op.consoleEv pid m => deliverConsole st pid m
  | Op.requestEv pid u meth ty => deliverRequest st pid u meth ty
  | Op.responseEv pid u s => deliverResponse st pid u s
  | Op.consoleQ p => (consoleQuery st p).st
  | Op.networkQ p => (networkQuery st p).st

/-- Run a sequence of session operations. -/
def run (st : SessionState) (ops : List Op) : SessionState :=
  ops.foldl applyOp st

/-- The §3 invariant: currentPageId is null or a key present in pages. -/
def currentOk (st : SessionState) : Bool :=
  match st.currentPageId with
  | none => true
  | some cid => mapHas st.pages cid

/-- Every registered key is a truthy (nonempty) string. -/
def goodKeys (st : SessionState) : Bool :=
  st.pages.all (fun e => !(e.1 = ""))

/-- Both capture buffers of every page hold at most 1000 entries. -/
def buffersBounded (st : SessionState) : Bool :=
  st.consoleMessages.all (fun e => decide (e.2.length ≤ 1000)) &&
  st.networkRequests.all (fun e => decide (e.2.length ≤ 1000))

/-! ### Association-list map lemmas -/

lemma mapGet_mapSet_self {α : Type} (m : List (String × α)) (k : String) (v : α) :
    mapGet (mapSet m k v) k = some v := by
  induction m with
  | nil => simp [mapGet, mapSet]
  | cons e rest ih =>
    obtain ⟨k', v'⟩ := e
    by_cases h : k' = k <;> simp [mapGet, mapSet, h, ih]

lemma mapGet_mapSet_ne {α : Type} (m : List (String × α)) (k k' : String) (v : α)
    (h : k' ≠ k) : mapGet (mapSet m k v) k' = mapGet m k' := by
  have h' : ¬ k = k' := fun he => h he.symm
  induction m with
  | nil => simp [mapGet, mapSet, h']
  | cons e rest ih =>
    obtain ⟨a, b⟩ := e
    by_cases ha : a = k
    · subst ha
      simp [mapGet, mapSet, h']
    · simp [mapGet, mapSet, ha, ih]

lemma mapGet_mapDelete_ne {α : Type} (m : List (String × α)) (k k' : String)
    (h : k' ≠ k) : mapGet (mapDelete m k) k' = mapGet m k' := by
  have h' : ¬ k = k' := fun he => h he.symm
  induction m with
  | nil => simp [mapDelete]
  | cons e rest ih =>
    obtain ⟨a, b⟩ := e
    by_cases ha : a = k
    · subst ha
      simp [mapGet, mapDelete, h']
    · simp [mapGet, mapDelete, ha, ih]

lemma mapHas_mapDelete_of {α : Type} (m : List (String × α)) (k k' : String)
    (h : mapHas (mapDelete m k) k' = true) : mapHas m k' = true := by
  induction m with
  | nil => simpa [mapDelete] using h
  | cons e rest ih =>
    obtain ⟨a, b⟩ := e
    by_cases ha : a = k
    · subst ha
      by_cases ha' : a = k'
      · simp [mapHas, mapGet, ha']
      · simp only [mapDelete, if_pos rfl] at h
        simp [mapHas, mapGet, ha']
        simpa [mapHas] using h
    · by_cases ha' : a = k'
      · simp [mapHas, mapGet, ha']
      · simp only [mapDelete, if_neg ha] at h
        simp only [mapHas, mapGet, if_neg ha'] at h ⊢
        exact ih h

lemma firstKey_mapHas {α : Type} (m : List (String × α)) (k : String)
    (h : firstKey m = some k) : mapHas m k = true := by
  cases m with
  | nil => simp [firstKey] at h
  | cons e rest =>
    obtain ⟨a, b⟩ := e
    simp [firstKey] at h
    simp [mapHas, mapGet, h]

lemma mapSet_self_of_get {α : Type} (m : List (String × α)) (k : String) (v : α)
    (h : mapGet m k = some v) : mapSet m k v = m := by
  induction m with
  | nil => simp [mapGet] at h
  | cons e rest ih =>
    obtain ⟨a, b⟩ := e
    by_cases ha : a = k
    · subst ha
      simp [mapGet] at h
      simp [mapSet, h]
    · simp only [mapGet, if_neg ha] at h
      simp [mapSet, ha, ih h]

lemma all_of_mapGet {α : Type} (p : String × α → Bool) (m : List (String × α))
    (k : String) (v : α) (hall : m.all p = true) (hget : mapGet m k = some v) :
    p (k, v) = true := by
  induction m with
  | nil => simp [mapGet] at hget
  | cons e rest ih =>
    obtain ⟨a, b⟩ := e
    simp only [List.all_cons, Bool.and_eq_true] at hall
    by_cases ha : a = k
    · subst ha
      simp [mapGet] at hget
      subst hget
      exact hall.1
    · simp only [mapGet, if_neg ha] at hget
      exact ih hall.2 hget

lemma all_mapSet {α : Type} (p : String × α → Bool) (m : List (String × α))
    (k : String) (v : α) (hall : m.all p = true) (hv : p (k, v) = true) :
    (mapSet m k v).all p = true := by
  induction m with
  | nil => simp [mapSet, hv]
  | cons e rest ih =>
    obtain ⟨a, b⟩ := e
    simp only [List.all_cons, Bool.and_eq_true] at hall
    by_cases ha : a = k <;> simp [mapSet, ha, hv, hall.1, hall.2, ih hall.2]

lemma all_mapDelete {α : Type} (p : String × α → Bool) (m : List (String × α))
    (k : String) (hall : m.all p = true) : (mapDelete m k).all p = true := by
  induction m with
  | nil => simp [mapDelete]
  | cons e rest ih =>
    obtain ⟨a, b⟩ := e
    simp only [List.all_cons, Bool.and_eq_true] at hall
    by_cases ha : a = k <;> simp [mapDelete, ha, hall.1, hall.2, ih hall.2]

/-! ### Bounded-append and response-matching lemmas -/

lemma pushBounded_of_lt {α : Type} (xs : List α) (x : α) (h : xs.length < 1000) :
    pushBounded xs x = xs ++ [x] := by
  have hle : ¬ (xs ++ [x]).length > 1000 := by
    simp only [List.length_append, List.length_singleton]
    omega
  simp only [pushBounded]
  rw [if_neg hle]

lemma pushBounded_of_full {α : Type} (xs : List α) (x : α) (h : xs.length = 1000) :
    pushBounded xs x = xs.tail ++ [x] := by
  have hgt : (xs ++ [x]).length > 1000 := by
    simp only [List.length_append, List.length_singleton]
    omega
  simp only [pushBounded]
  rw [if_pos hgt]
  cases xs with
  | nil => simp at h
  | cons a as => simp

lemma pushBounded_length_le {α : Type} (xs : List α) (x : α) (h : xs.length ≤ 1000) :
    (pushBounded xs x).length ≤ 1000 := by
  rcases Nat.lt_or_ge xs.length 1000 with hlt | hge
  · rw [pushBounded_of_lt xs x hlt]; simp; omega
  · have he : xs.length = 1000 := le_antisymm h hge
    rw [pushBounded_of_full xs x he]
    cases xs with
    | nil => simp at he
    | cons a as =>
      simp at he ⊢
      omega

lemma setFirstPending_length (rs : List NetworkReq) (u : String) (s : Nat) :
    (setFirstPending rs u s).length = rs.length := by
  induction rs with
  | nil => rfl
  | cons r rest ih =>
    by_cases h : isPendingFor u r <;> simp [setFirstPending, h, ih]

lemma setFirstPending_of_none (rs : List NetworkReq) (u : String) (s : Nat)
    (h : ∀ r ∈ rs, isPendingFor u r = false) : setFirstPending rs u s = rs := by
  induction rs with
  | nil => rfl
  | cons r rest ih =>
    have hr : isPendingFor u r = false := h r (List.mem_cons_self r rest)
    have hrest : ∀ r ∈ rest, isPendingFor u r = false :=
      fun a ha => h a (List.mem_cons_of_mem r ha)
    simp [setFirstPending, hr, ih hrest]

lemma setFirstPending_append (as : List NetworkReq) (r : NetworkReq)
    (bs : List NetworkReq) (u : String) (s : Nat)
    (ha : ∀ a ∈ as, isPendingFor u a = false) (hr : isPendingFor u r = true) :
    setFirstPending (as ++ r :: bs) u s = as ++ { r with status := s } :: bs := by
  induction as with
  | nil => simp [setFirstPending, hr]
  | cons a rest ih =>
    have ha1 : isPendingFor u a = false := ha a (List.mem_cons_self a rest)
    have ha2 : ∀ x ∈ rest, isPendingFor u x = false :=
      fun x hx => ha x (List.mem_cons_of_mem a hx)
    simp [setFirstPending, ha1, ih ha2]

/-! ### Injectivity of the minted page identifiers -/

lemma digitChar_inj10 : ∀ d1 < 10, ∀ d2 < 10,
    Nat.digitChar d1 = Nat.digitChar d2 → d1 = d2 := by decide

lemma padDigits_lt_ten (n : Nat) : ∀ d ∈ padDigits n, d < 10 := by
  intro d hd
  by_cases h : n = 0
  · subst h
    simp [padDigits] at hd
    omega
  · rw [padDigits, if_neg h] at hd
    exact Nat.digits_lt_base (by norm_num) hd

lemma padDigits_inj {m n : Nat} (h : padDigits m = padDigits n) : m = n := by
  by_cases hm : m = 0 <;> by_cases hn : n = 0
  · omega
  · exfalso
    rw [padDigits, if_pos hm, padDigits, if_neg hn] at h
    have := Nat.ofDigits_digits 10 n
    rw [← h] at this
    simp [Nat.ofDigits] at this
    omega
  · exfalso
    rw [padDigits, if_neg hm, padDigits, if_pos hn] at h
    have := Nat.ofDigits_digits 10 m
    rw [h] at this
    simp [Nat.ofDigits] at this
    omega
  · rw [padDigits, if_neg hm, padDigits, if_neg hn] at h
    have h1 := Nat.ofDigits_digits 10 m
    have h2 := Nat.ofDigits_digits 10 n
    rw [h] at h1
    omega

lemma toDigitsCore_eq_padDigits :
    ∀ (fuel n : Nat) (ds : List Char), n < fuel →
      Nat.toDigitsCore 10 fuel n ds = (padDigits n).reverse.map Nat.digitChar ++ ds := by
  intro fuel
  induction fuel with
  | zero => intro n ds h; omega
  | succ fuel ih =>
    intro n ds h
    by_cases h10 : n / 10 = 0
    · have hn10 : n < 10 := by omega
      have hmod : n % 10 = n := by omega
      simp only [Nat.toDigitsCore, h10]
      by_cases hn0 : n = 0
      · subst hn0
        simp [padDigits]
      · rw [padDigits, if_neg hn0, Nat.digits_of_lt 10 n hn0 hn10]
        simp [hmod]
    · have hlt : n / 10 < fuel := by omega
      simp only [Nat.toDigitsCore]
      rw [if_neg h10]
      rw [ih (n / 10) (Nat.digitChar (n % 10) :: ds) hlt]
      have hpn : padDigits n = n % 10 :: padDigits (n / 10) := by
        have hn0 : ¬ n = 0 := by omega
        simp only [padDigits, if_neg hn0, if_neg h10]
        exact Nat.digits_def' (by norm_num : (1:ℕ) < 10) (by omega : 0 < n)
      rw [hpn]
      simp

lemma toDigits_eq_padDigits (n : Nat) :
    Nat.toDigits 10 n = (padDigits n).reverse.map Nat.digitChar := by
  have h := toDigitsCore_eq_padDigits (n + 1) n [] (Nat.lt_succ_self n)
  simpa [Nat.toDigits] using h

lemma map_digitChar_inj : ∀ (l1 l2 : List Nat), (∀ d ∈ l1, d < 10) → (∀ d ∈ l2, d < 10) →
    l1.map Nat.digitChar = l2.map Nat.digitChar → l1 = l2
  | [], [], _, _, _ => rfl
  | [], _ :: _, _, _, h => by simp at h
  | _ :: _, [], _, _, h => by simp at h
  | a :: l1, b :: l2, h1, h2, h => by
    simp only [List.map_cons, List.cons.injEq] at h
    have ha : a < 10 := h1 a (List.mem_cons_self a l1)
    have hb : b < 10 := h2 b (List.mem_cons_self b l2)
    have hab : a = b := digitChar_inj10 a ha b hb h.1
    have htl : l1 = l2 :=
      map_digitChar_inj l1 l2 (fun d hd => h1 d (List.mem_cons_of_mem a hd))
        (fun d hd => h2 d (List.mem_cons_of_mem b hd)) h.2
    rw [hab, htl]

lemma nat_repr_inj {m n : Nat} (h : Nat.repr m = Nat.repr n) : m = n := by
  have hd : Nat.toDigits 10 m = Nat.toDigits 10 n := by
    have h2 := congrArg String.data h
    simpa [Nat.repr, List.asString] using h2
  rw [toDigits_eq_padDigits, toDigits_eq_padDigits] at hd
  have hrev : (padDigits m).reverse = (padDigits n).reverse :=
    map_digitChar_inj _ _ (fun d hdm => padDigits_lt_ten m d (List.mem_reverse.mp hdm))
      (fun d hdn => padDigits_lt_ten n d (List.mem_reverse.mp hdn)) hd
  exact padDigits_inj (List.reverse_injective hrev)

lemma mkPageId_inj {t1 t2 : Nat} (h : mkPageId t1 = mkPageId t2) : t1 = t2 := by
  have hd := congrArg String.data h
  simp only [mkPageId, String.data_append] at hd
  exact nat_repr_inj (String.ext (List.append_cancel_left hd))

lemma mkPageId_ne_empty (t : Nat) : mkPageId t ≠ "" := by
  intro h
  have hlen := congrArg String.length h
  rw [mkPageId, String.length_append] at hlen
  have h5 : ("page_" : String).length = 5 := rfl
  have h0 : ("" : String).length = 0 := rfl
  omega

/-! ### Preservation of the currentPageId invariant -/

lemma mapHas_mapSet_self {α : Type} (m : List (String × α)) (k : String) (v : α) :
    mapHas (mapSet m k v) k = true := by
  simp [mapHas, mapGet_mapSet_self]

lemma currentOk_eq_of (st st' : SessionState) (hp : st'.pages = st.pages)
    (hc : st'.currentPageId = st.currentPageId) : currentOk st' = currentOk st := by
  unfold currentOk
  rw [hc, hp]

lemma currentOk_createFresh (env : Env) (st : SessionState) :
    currentOk (createFresh env st).st = true := by
  simp [createFresh, currentOk, mapHas_mapSet_self]

lemma currentOk_resolveCurrent (env : Env) (st : SessionState) :
    currentOk (resolveCurrent env st).st = true := by
  unfold resolveCurrent
  cases hc : st.currentPageId with
  | none => exact currentOk_createFresh env st
  | some cid =>
    by_cases he : cid = ""
    · simp [he, currentOk_createFresh]
    · cases hg : mapGet st.pages cid with
      | none => simp [he, hg, currentOk_createFresh]
      | some page =>
        by_cases hv : page.valid
        · simp [he, hg, hv, currentOk, hc, mapHas]
        · simp [he, hg, hv, currentOk_createFresh]

lemma currentOk_getOrCreatePage (env : Env) (st : SessionState) (e : Option String)
    (h : currentOk st = true) : currentOk (getOrCreatePage env st e).st = true := by
  unfold getOrCreatePage
  cases e with
  | none => exact currentOk_resolveCurrent env st
  | some pid =>
    by_cases hp : pid = ""
    · simp [hp, currentOk_resolveCurrent]
    · cases hg : mapGet st.pages pid with
      | none => simp [hp, hg, currentOk_resolveCurrent]
      | some page =>
        by_cases hv : page.valid
        · simpa [hp, hg, hv] using h
        · simp [hp, hg, hv, currentOk_resolveCurrent]

lemma currentOk_newPageStep (env : Env) (st : SessionState) :
    currentOk (newPageStep env st).1 = true := by
  simp [newPageStep, currentOk, mapHas_mapSet_self]

lemma currentOk_closePageStep (st : SessionState) (p : Option String) (ok : Bool)
    (h : currentOk st = true) : currentOk (closePageStep st p ok).1 = true := by
  simp only [closePageStep]
  cases hi : truthyOr p st.currentPageId with
  | none => exact h
  | some i =>
    by_cases hcond : i ≠ "" ∧ mapHas st.pages i = true
    · by_cases hok : ok
      · simp only [if_pos hcond, hok, if_pos]
        by_cases hcur : st.currentPageId = some i
        · simp only [hcur, if_pos rfl]
          cases hfk : firstKey (mapDelete st.pages i) with
          | none => simp [currentOk]
          | some k =>
            by_cases hk : k = ""
            · simp [hfk, hk, currentOk]
            · simp [hfk, hk, currentOk, firstKey_mapHas _ k hfk]
        · simp only [hcur, if_neg, if_false]
          unfold currentOk at h ⊢
          cases hc2 : st.currentPageId with
          | none => rfl
          | some c =>
            rw [hc2] at h
            have hci : c ≠ i := by
              intro he
              exact hcur (by rw [hc2, he])
            simp only [mapHas] at h ⊢
            rw [mapGet_mapDelete_ne st.pages i c hci]
            exact h
      · simp only [if_pos hcond]
        simp [hok, h]
    · simp [hcond, h]

lemma currentOk_selectPageStep (st : SessionState) (p : String)
    (h : currentOk st = true) : currentOk (selectPageStep st p).1 = true := by
  unfold selectPageStep
  by_cases hh : mapHas st.pages p
  · simp [hh, currentOk]
  · simpa [hh] using h

lemma deliverConsole_pages_current (st : SessionState) (pid : String) (m : ConsoleMsg) :
    (deliverConsole st pid m).pages = st.pages ∧
      (deliverConsole st pid m).currentPageId = st.currentPageId := by
  unfold deliverConsole onConsole
  by_cases hs : pid ∈ st.subscriptions
  · simp only [if_pos hs]
    cases mapGet st.consoleMessages pid <;> exact ⟨rfl, rfl⟩
  · simp [hs]

lemma deliverRequest_pages_current (st : SessionState) (pid u meth ty : String) :
    (deliverRequest st pid u meth ty).pages = st.pages ∧
      (deliverRequest st pid u meth ty).currentPageId = st.currentPageId := by
  unfold deliverRequest onRequest
  by_cases hs : pid ∈ st.subscriptions
  · simp only [if_pos hs]
    cases mapGet st.networkRequests pid <;> exact ⟨rfl, rfl⟩
  · simp [hs]

lemma deliverResponse_pages_current (st : SessionState) (pid u : String) (s : Nat) :
    (deliverResponse st pid u s).pages = st.pages ∧
      (deliverResponse st pid u s).currentPageId = st.currentPageId := by
  unfold deliverResponse onResponse
  by_cases hs : pid ∈ st.subscriptions
  · simp only [if_pos hs]
    cases mapGet st.networkRequests pid <;> exact ⟨rfl, rfl⟩
  · simp [hs]

lemma currentOk_applyOp (st : SessionState) (op : Op) (h : currentOk st = true) :
    currentOk (applyOp st op) = true := by
  cases op with
  | resolve env e => exact currentOk_getOrCreatePage env st e h
  | newPage env => exact currentOk_newPageStep env st
  | closePage p ok => exact currentOk_closePageStep st p ok h
  | selectPage p => exact currentOk_selectPageStep st p h
  | disconnect => simp [applyOp, disconnectStep, currentOk]
  | consoleEv pid m =>
    have hpc := deliverConsole_pages_current st pid m
    rw [applyOp, currentOk_eq_of st (deliverConsole st pid m) hpc.1 hpc.2]
    exact h
  | requestEv pid u meth ty =>
    have hpc := deliverRequest_pages_current st pid u meth ty
    rw [applyOp, currentOk_eq_of st (deliverRequest st pid u meth ty) hpc.1 hpc.2]
    exact h
  | responseEv pid u s =>
    have hpc := deliverResponse_pages_current st pid u s
    rw [applyOp, currentOk_eq_of st (deliverResponse st pid u s) hpc.1 hpc.2]
    exact h
  | consoleQ p => exact h
  | networkQ p => exact h

lemma currentOk_run (st : SessionState) (ops : List Op) (h : currentOk st = true) :
    currentOk (run st ops) = true := by
  induction ops generalizing st with
  | nil => exact h
  | cons op rest ih => exact ih (applyOp st op) (currentOk_applyOp st op h)

/-! ### Preservation of key shape and buffer bounds -/

lemma goodKeys_createFresh (env : Env) (st : SessionState) (h : goodKeys st = true) :
    goodKeys (createFresh env st).st = true := by
  unfold goodKeys at h ⊢
  simp only [createFresh]
  exact all_mapSet _ st.pages (mkPageId env.now) _ h (by simp [mkPageId_ne_empty env.now])

lemma goodKeys_resolveCurrent (env : Env) (st : SessionState) (h : goodKeys st = true) :
    goodKeys (resolveCurrent env st).st = true := by
  unfold resolveCurrent
  cases hc : st.currentPageId with
  | none => exact goodKeys_createFresh env st h
  | some cid =>
    by_cases he : cid = ""
    · simp only [he, if_pos rfl]
      exact goodKeys_createFresh env st h
    · cases hg : mapGet st.pages cid with
      | none =>
        simp only [if_neg he, hg]
        exact goodKeys_createFresh env st h
      | some page =>
        by_cases hv : page.valid
        · simpa [he, hg, hv] using h
        · simp only [if_neg he, hg, hv, Bool.false_eq_true, if_false]
          exact goodKeys_createFresh env _ (all_mapDelete _ st.pages cid h)

lemma goodKeys_getOrCreatePage (env : Env) (st : SessionState) (e : Option String)
    (h : goodKeys st = true) : goodKeys (getOrCreatePage env st e).st = true := by
  unfold getOrCreatePage
  cases e with
  | none => exact goodKeys_resolveCurrent env st h
  | some pid =>
    by_cases hp : pid = ""
    · simp only [hp, if_pos rfl]
      exact goodKeys_resolveCurrent env st h
    · cases hg : mapGet st.pages pid with
      | none =>
        simp only [if_neg hp, hg]
        exact goodKeys_resolveCurrent env st h
      | some page =>
        by_cases hv : page.valid
        · simpa [hp, hg, hv] using h
        · simp only [if_neg hp, hg, hv, Bool.false_eq_true, if_false]
          exact goodKeys_resolveCurrent env _ (all_mapDelete _ st.pages pid h)

lemma goodKeys_applyOp (st : SessionState) (op : Op) (h : goodKeys st = true) :
    goodKeys (applyOp st op) = true := by
  cases op with
  | resolve env e => exact goodKeys_getOrCreatePage env st e h
  | newPage env =>
    unfold goodKeys at h ⊢
    simp only [applyOp, newPageStep]
    exact all_mapSet _ st.pages (mkPageId env.now) _ h (by simp [mkPageId_ne_empty env.now])
  | closePage p ok =>
    simp only [applyOp, closePageStep]
    cases hi : truthyOr p st.currentPageId with
    | none => exact h
    | some i =>
      by_cases hcond : i ≠ "" ∧ mapHas st.pages i = true
      · by_cases hok : ok
        · simp only [if_pos hcond, hok, if_pos]
          by_cases hcur : st.currentPageId = some i
          · simp only [hcur, if_pos rfl]
            exact all_mapDelete _ st.pages i h
          · simp only [hcur, if_neg, if_false]
            exact all_mapDelete _ st.pages i h
        · simp only [if_pos hcond]
          simp [hok, h]
      · simp [hcond, h]
  | selectPage p =>
    unfold goodKeys at h ⊢
    simp only [applyOp, selectPageStep]
    by_cases hh : mapHas st.pages p <;> simp [hh, h]
  | disconnect => simp [applyOp, disconnectStep, goodKeys]
  | consoleEv pid m =>
    unfold goodKeys at h ⊢
    rw [show (applyOp st (Op.consoleEv pid m)).pages = st.pages from
      (deliverConsole_pages_current st pid m).1]
    exact h
  | requestEv pid u meth ty =>
    unfold goodKeys at h ⊢
    rw [show (applyOp st (Op.requestEv pid u meth ty)).pages = st.pages from
      (deliverRequest_pages_current st pid u meth ty).1]
    exact h
  | responseEv pid u s =>
    unfold goodKeys at h ⊢
    rw [show (applyOp st (Op.responseEv pid u s)).pages = st.pages from
      (deliverResponse_pages_current st pid u s).1]
    exact h
  | consoleQ p => exact h
  | networkQ p => exact h

lemma goodKeys_run (st : SessionState) (ops : List Op) (h : goodKeys st = true) :
    goodKeys (run st ops) = true := by
  induction ops generalizing st with
  | nil => exact h
  | cons op rest ih => exact ih (applyOp st op) (goodKeys_applyOp st op h)

lemma buffersBounded_split (st : SessionState) : buffersBounded st = true ↔
    (st.consoleMessages.all (fun e => decide (e.2.length ≤ 1000)) = true ∧
      st.networkRequests.all (fun e => decide (e.2.length ≤ 1000)) = true) := by
  unfold buffersBounded
  rw [Bool.and_eq_true]

lemma buffersBounded_createFresh (env : Env) (st : SessionState)
    (h : buffersBounded st = true) : buffersBounded (createFresh env st).st = true := by
  rw [buffersBounded_split] at h ⊢
  simp only [createFresh]
  exact ⟨all_mapSet _ st.consoleMessages (mkPageId env.now) [] h.1 (by simp),
    all_mapSet _ st.networkRequests (mkPageId env.now) [] h.2 (by simp)⟩

lemma buffersBounded_resolveCurrent (env : Env) (st : SessionState)
    (h : buffersBounded st = true) : buffersBounded (resolveCurrent env st).st = true := by
  unfold resolveCurrent
  cases hc : st.currentPageId with
  | none => exact buffersBounded_createFresh env st h
  | some cid =>
    by_cases he : cid = ""
    · simp only [he, if_pos rfl]
      exact buffersBounded_createFresh env st h
    · cases hg : mapGet st.pages cid with
      | none =>
        simp only [if_neg he, hg]
        exact buffersBounded_createFresh env st h
      | some page =>
        by_cases hv : page.valid
        · simpa [he, hg, hv] using h
        · simp only [if_neg he, hg, hv, Bool.false_eq_true, if_false]
          exact buffersBounded_createFresh env _ h

lemma buffersBounded_getOrCreatePage (env : Env) (st : SessionState) (e : Option String)
    (h : buffersBounded st = true) : buffersBounded (getOrCreatePage env st e).st = true := by
  unfold getOrCreatePage
  cases e with
  | none => exact buffersBounded_resolveCurrent env st h
  | some pid =>
    by_cases hp : pid = ""
    · simp only [hp, if_pos rfl]
      exact buffersBounded_resolveCurrent env st h
    · cases hg : mapGet st.pages pid with
      | none =>
        simp only [if_neg hp, hg]
        exact buffersBounded_resolveCurrent env st h
      | some page =>
        by_cases hv : page.valid
        · simpa [hp, hg, hv] using h
        · simp only [if_neg hp, hg, hv, Bool.false_eq_true, if_false]
          exact buffersBounded_resolveCurrent env _ h

lemma buffersBounded_applyOp (st : SessionState) (op : Op)
    (h : buffersBounded st = true) : buffersBounded (applyOp st op) = true := by
  cases op with
  | resolve env e => exact buffersBounded_getOrCreatePage env st e h
  | newPage env =>
    rw [buffersBounded_split] at h ⊢
    simp only [applyOp, newPageStep]
    exact ⟨all_mapSet _ st.consoleMessages (mkPageId env.now) [] h.1 (by simp),
      all_mapSet _ st.networkRequests (mkPageId env.now) [] h.2 (by simp)⟩
  | closePage p ok =>
    simp only [applyOp, closePageStep]
    cases hi : truthyOr p st.currentPageId with
    | none => exact h
    | some i =>
      by_cases hcond : i ≠ "" ∧ mapHas st.pages i = true
      · by_cases hok : ok
        · simp only [if_pos hcond, hok, if_pos]
          rw [buffersBounded_split] at h
          by_cases hcur : st.currentPageId = some i
          · simp only [hcur, if_pos rfl]
            rw [buffersBounded_split]
            exact ⟨all_mapDelete _ st.consoleMessages i h.1,
              all_mapDelete _ st.networkRequests i h.2⟩
          · simp only [hcur, if_neg, if_false]
            rw [buffersBounded_split]
            exact ⟨all_mapDelete _ st.consoleMessages i h.1,
              all_mapDelete _ st.networkRequests i h.2⟩
        · simp only [if_pos hcond]
          simp [hok, h]
      · simp [hcond, h]
  | selectPage p =>
    simp only [applyOp, selectPageStep]
    by_cases hh : mapHas st.pages p
    · simpa [hh] using h
    · simpa [hh] using h
  | disconnect => exact h
  | consoleEv pid m =>
    simp only [applyOp]
    unfold deliverConsole
    by_cases hs : pid ∈ st.subscriptions
    · simp only [if_pos hs]
      unfold onConsole
      cases hg : mapGet st.consoleMessages pid with
      | none => exact h
      | some msgs =>
        rw [buffersBounded_split] at h ⊢
        refine ⟨?_, h.2⟩
        have hlen : msgs.length ≤ 1000 := by
          simpa using all_of_mapGet _ st.consoleMessages pid msgs h.1 hg
        exact all_mapSet _ st.consoleMessages pid _ h.1
          (by simp [pushBounded_length_le msgs m hlen])
    · simp [hs, h]
  | requestEv pid u meth ty =>
    simp only [applyOp]
    unfold deliverRequest
    by_cases hs : pid ∈ st.subscriptions
    · simp only [if_pos hs]
      unfold onRequest
      cases hg : mapGet st.networkRequests pid with
      | none => exact h
      | some rs =>
        rw [buffersBounded_split] at h ⊢
        refine ⟨h.1, ?_⟩
        have hlen : rs.length ≤ 1000 := by
          simpa using all_of_mapGet _ st.networkRequests pid rs h.2 hg
        exact all_mapSet _ st.networkRequests pid _ h.2
          (by simp [pushBounded_length_le rs _ hlen])
    · simp [hs, h]
  | responseEv pid u s =>
    simp only [applyOp]
    unfold deliverResponse
    by_cases hs : pid ∈ st.subscriptions
    · simp only [if_pos hs]
      unfold onResponse
      cases hg : mapGet st.networkRequests pid with
      | none => exact h
      | some rs =>
        rw [buffersBounded_split] at h ⊢
        refine ⟨h.1, ?_⟩
        have hlen : rs.length ≤ 1000 := by
          simpa using all_of_mapGet _ st.networkRequests pid rs h.2 hg
        exact all_mapSet _ st.networkRequests pid _ h.2
          (by simp [setFirstPending_length, hlen])
    · simp [hs, h]
  | consoleQ p => exact h
  | networkQ p => exact h

lemma buffersBounded_run (st : SessionState) (ops : List Op)
    (h : buffersBounded st = true) : buffersBounded (run st ops) = true := by
  induction ops generalizing st with
  | nil => exact h
  | cons op rest ih => exact ih (applyOp st op) (buffersBounded_applyOp st op h)

/-! ### Claim theorems -/

/-- C4: for every sequence of session operations (page resolution,
new-page, close-page, select-page, disconnect handling, event deliveries
and log queries) starting from the fresh daemon state, currentPageId is
always either null or a key present in the pages map. -/
theorem currentPageId_always_in_pages (ops : List Op) :
    currentOk (run initState ops) = true :=
  currentOk_run initState ops rfl

/-- C6: over every operation sequence from the fresh daemon state the
console and network buffers of every page hold at most 1000 entries, and
the bounded append keeps appends below capacity intact while evicting
exactly the oldest (head) entry when an append would exceed capacity. -/
theorem buffers_bounded_and_fifo :
    (∀ ops : List Op, buffersBounded (run initState ops) = true) ∧
    (∀ (α : Type) (xs : List α) (x : α), xs.length < 1000 →
      pushBounded xs x = xs ++ [x]) ∧
    (∀ (α : Type) (xs : List α) (x : α), xs.length = 1000 →
      pushBounded xs x = xs.tail ++ [x]) :=
  ⟨fun ops => buffersBounded_run initState ops rfl,
   fun _ xs x h => pushBounded_of_lt xs x h,
   fun _ xs x h => pushBounded_of_full xs x h⟩

/-- Witness for C6: a full 1000-entry buffer evicts its head on append. -/
theorem buffers_bounded_and_fifo_witness :
    pushBounded (List.replicate 1000 (0 : Nat)) 7 =
      (List.replicate 1000 (0 : Nat)).tail ++ [7] :=
  buffers_bounded_and_fifo.2.2 Nat (List.replicate 1000 0) 7 (List.length_replicate 1000 0)

/-- C9: close-page is atomic on error: when the remote page.close() throws
(modelled by the closeOk input being false) the handler reports failure and
the session state is returned exactly as it was; registry and buffer
deletion and currentPageId reassignment happen only after a successful
close. -/
theorem closePage_error_preserves_state (st : SessionState) (p : Option String) :
    closePageStep st p false = (st, false) := by
  simp only [closePageStep]
  cases truthyOr p st.currentPageId with
  | none => rfl
  | some i =>
    by_cases hcond : i ≠ "" ∧ mapHas st.pages i = true
    · simp [hcond]
    · simp [hcond]

/-- C1 counterexample: a response event for a URL with two still-pending
records sets the status of the EARLIEST-appended one, not the most recent
one as claimed, so the claim fails at this concrete input. -/
theorem response_not_most_recent_cex :
    deliverResponse
      { pages := [("p1", { url := "https://e.x/a", valid := true })],
        currentPageId := some "p1",
        consoleMessages := [("p1", [])],
        networkRequests := [("p1",
          [{ url := "https://e.x/a", method := "GET", status := 0, type := "xhr" },
           { url := "https://e.x/a", method := "POST", status := 0, type := "fetch" }])],
        subscriptions := ["p1"] }
      "p1" "https://e.x/a" 200 =
      { pages := [("p1", { url := "https://e.x/a", valid := true })],
        currentPageId := some "p1",
        consoleMessages := [("p1", [])],
        networkRequests := [("p1",
          [{ url := "https://e.x/a", method := "GET", status := 200, type := "xhr" },
           { url := "https://e.x/a", method := "POST", status := 0, type := "fetch" }])],
        subscriptions := ["p1"] } ∧
    deliverResponse
      { pages := [("p1", { url := "https://e.x/a", valid := true })],
        currentPageId := some "p1",
        consoleMessages := [("p1", [])],
        networkRequests := [("p1",
          [{ url := "https://e.x/a", method := "GET", status := 0, type := "xhr" },
           { url := "https://e.x/a", method := "POST", status := 0, type := "fetch" }])],
        subscriptions := ["p1"] }
      "p1" "https://e.x/a" 200 ≠
      { pages := [("p1", { url := "https://e.x/a", valid := true })],
        currentPageId := some "p1",
        consoleMessages := [("p1", [])],
        networkRequests := [("p1",
          [{ url := "https://e.x/a", method := "GET", status := 0, type := "xhr" },
           { url := "https://e.x/a", method := "POST", status := 200, type := "fetch" }])],
        subscriptions := ["p1"] } := by
  constructor
  · decide
  · decide

/-- C1 (amended): a response event sets the status of the earliest-appended
still-pending (status 0) record whose url equals the response url exactly,
leaving every other record untouched; if no such pending record exists the
buffer and the whole state are unchanged (the response stays unmatched). -/
theorem response_updates_earliest_pending (st : SessionState) (pid u : String) (s : Nat)
    (rs : List NetworkReq) (hget : mapGet st.networkRequests pid = some rs) :
    ((∀ r ∈ rs, isPendingFor u r = false) → onResponse st pid u s = st) ∧
    (∀ as r bs, rs = as ++ r :: bs → (∀ a ∈ as, isPendingFor u a = false) →
      isPendingFor u r = true →
      onResponse st pid u s =
        { st with networkRequests :=
            mapSet st.networkRequests pid (as ++ { r with status := s } :: bs) }) := by
  constructor
  · intro hnone
    unfold onResponse
    simp only [hget]
    rw [setFirstPending_of_none rs u s hnone,
      mapSet_self_of_get st.networkRequests pid rs hget]
  · intro as r bs hsplit ha hr
    unfold onResponse
    simp only [hget]
    rw [hsplit, setFirstPending_append as r bs u s ha hr]

/-- Witness for C1 (amended): one settled and one pending record ahead of
the matching pending record at a concrete state. -/
theorem response_updates_earliest_pending_witness :
    onResponse
      { pages := [], currentPageId := none, consoleMessages := [],
        networkRequests := [("p1",
          [{ url := "https://e.x/b", method := "GET", status := 304, type := "xhr" },
           { url := "https://e.x/a", method := "GET", status := 0, type := "xhr" }])],
        subscriptions := ["p1"] }
      "p1" "https://e.x/a" 200 =
      { pages := [], currentPageId := none, consoleMessages := [],
        networkRequests := [("p1",
          [{ url := "https://e.x/b", method := "GET", status := 304, type := "xhr" },
           { url := "https://e.x/a", method := "GET", status := 200, type := "xhr" }])],
        subscriptions := ["p1"] } :=
  (response_updates_earliest_pending
    { pages := [], currentPageId := none, consoleMessages := [],
      networkRequests := [("p1",
        [{ url := "https://e.x/b", method := "GET", status := 304, type := "xhr" },
         { url := "https://e.x/a", method := "GET", status := 0, type := "xhr" }])],
      subscriptions := ["p1"] }
    "p1" "https://e.x/a" 200
    [{ url := "https://e.x/b", method := "GET", status := 304, type := "xhr" },
     { url := "https://e.x/a", method := "GET", status := 0, type := "xhr" }]
    rfl).2
    [{ url := "https://e.x/b", method := "GET", status := 304, type := "xhr" }]
    { url := "https://e.x/a", method := "GET", status := 0, type := "xhr" }
    [] rfl (by decide) (by decide)

/-- C2: when two or more records with the same URL are still pending, a
response for that URL sets the status of the earliest-appended pending
record, leaving the later pending record untouched. -/
theorem response_matches_earliest_of_two
    (as bs cs : List NetworkReq) (r1 r2 : NetworkReq) (u : String) (s : Nat)
    (ha : ∀ a ∈ as, isPendingFor u a = false)
    (h1 : isPendingFor u r1 = true) (_h2 : isPendingFor u r2 = true) :
    setFirstPending (as ++ r1 :: (bs ++ r2 :: cs)) u s =
      as ++ { r1 with status := s } :: (bs ++ r2 :: cs) :=
  setFirstPending_append as r1 (bs ++ r2 :: cs) u s ha h1

/-- Witness for C2: two concurrent identical-URL pending records at a
concrete input; the first one appended gets the status. -/
theorem response_matches_earliest_of_two_witness :
    setFirstPending
      [{ url := "https://e.x/a", method := "GET", status := 0, type := "xhr" },
       { url := "https://e.x/a", method := "POST", status := 0, type := "fetch" }]
      "https://e.x/a" 200 =
      [{ url := "https://e.x/a", method := "GET", status := 200, type := "xhr" },
       { url := "https://e.x/a", method := "POST", status := 0, type := "fetch" }] :=
  response_matches_earliest_of_two [] []
    [] { url := "https://e.x/a", method := "GET", status := 0, type := "xhr" }
    { url := "https://e.x/a", method := "POST", status := 0, type := "fetch" }
    "https://e.x/a" 200 (by simp) (by decide) (by decide)

/-- C10: querying console or network logs for an identifier that is not a
key of the corresponding buffer map, or with no identifier while
currentPageId is null, succeeds with an empty list and leaves the session
state unchanged. -/
theorem logs_query_missing_page_empty (st : SessionState) (pid : String) :
    (pid ≠ "" → mapGet st.consoleMessages pid = none →
      consoleQuery st (some pid) =
        { st := st, success := true, pageId := some pid, items := [] }) ∧
    (pid ≠ "" → mapGet st.networkRequests pid = none →
      networkQuery st (some pid) =
        { st := st, success := true, pageId := some pid, items := [] }) ∧
    (st.currentPageId = none →
      consoleQuery st none = { st := st, success := true, pageId := none, items := [] } ∧
      networkQuery st none = { st := st, success := true, pageId := none, items := [] }) := by
  refine ⟨?_, ?_, ?_⟩
  · intro hne hget
    simp [consoleQuery, truthyOr, hne, hget]
  · intro hne hget
    simp [networkQuery, truthyOr, hne, hget]
  · intro hc
    exact ⟨by simp [consoleQuery, truthyOr, hc], by simp [networkQuery, truthyOr, hc]⟩

/-- Witness for C10 at the fresh daemon state and an unknown identifier. -/
theorem logs_query_missing_page_empty_witness :
    consoleQuery initState (some "page_9") =
      { st := initState, success := true, pageId := some "page_9", items := [] } ∧
    networkQuery initState (some "page_9") =
      { st := initState, success := true, pageId := some "page_9", items := [] } ∧
    consoleQuery initState none =
      { st := initState, success := true, pageId := none, items := [] } :=
  ⟨(logs_query_missing_page_empty initState "page_9").1 (by decide) rfl,
   (logs_query_missing_page_empty initState "page_9").2.1 (by decide) rfl,
   ((logs_query_missing_page_empty initState "page_9").2.2 rfl).1⟩

lemma key_ne_empty_of_mapHas (st : SessionState) (k : String)
    (hg : goodKeys st = true) (hh : mapHas st.pages k = true) : k ≠ "" := by
  unfold mapHas at hh
  obtain ⟨v, hv⟩ := Option.isSome_iff_exists.mp hh
  have := all_of_mapGet _ st.pages k v hg hv
  simpa using this

lemma closePageStep_hit (st : SessionState) (cid : String)
    (hcur : st.currentPageId = some cid) (hne : cid ≠ "")
    (hhas : mapHas st.pages cid = true) :
    closePageStep st none true =
      ({ pages := mapDelete st.pages cid,
         currentPageId := match firstKey (mapDelete st.pages cid) with
           | some k => if k = "" then none else some k
           | none => none,
         consoleMessages := mapDelete st.consoleMessages cid,
         networkRequests := mapDelete st.networkRequests cid,
         subscriptions := st.subscriptions }, true) := by
  simp only [closePageStep, truthyOr, hcur]
  rw [if_pos ⟨hne, hhas⟩]
  simp [hcur]

/-- C5: when close-page closes the page named by currentPageId (the default
target) in a reachable daemon state and the close succeeds, currentPageId
is reassigned to one of the remaining registered keys whenever any page
remains, and becomes null only when no page remains. -/
theorem closePage_current_reassigned (ops : List Op) (cid : String)
    (hcur : (run initState ops).currentPageId = some cid) :
    (closePageStep (run initState ops) none true).2 = true ∧
    (mapDelete (run initState ops).pages cid = [] →
      (closePageStep (run initState ops) none true).1.currentPageId = none) ∧
    (mapDelete (run initState ops).pages cid ≠ [] →
      ∃ k, (closePageStep (run initState ops) none true).1.currentPageId = some k ∧
        mapHas (closePageStep (run initState ops) none true).1.pages k = true) := by
  have hok := currentOk_run initState ops rfl
  have hg := goodKeys_run initState ops rfl
  unfold currentOk at hok
  rw [hcur] at hok
  have hne : cid ≠ "" := key_ne_empty_of_mapHas (run initState ops) cid hg hok
  rw [closePageStep_hit (run initState ops) cid hcur hne hok]
  refine ⟨rfl, ?_, ?_⟩
  · intro hnil
    simp [hnil, firstKey]
  · intro hnonnil
    cases hd : mapDelete (run initState ops).pages cid with
    | nil => exact absurd hd hnonnil
    | cons e rest =>
      have hall : (mapDelete (run initState ops).pages cid).all
          (fun e => !(e.1 = "")) = true := all_mapDelete _ _ cid hg
      rw [hd] at hall
      simp only [List.all_cons, Bool.and_eq_true] at hall
      have he : ¬ e.1 = "" := by simpa using hall.1
      refine ⟨e.1, ?_, ?_⟩
      · simp [hd, firstKey, he]
      · simp [hd, mapHas, mapGet]

/-- Witness for C5: a reachable two-page session in which the current page
is closed and currentPageId is reassigned to the remaining key. -/
theorem closePage_current_reassigned_witness :
    ∃ k, (closePageStep (run initState
        [Op.newPage { now := 0, browserPages := [], freshPage := { url := "about:blank", valid := true } },
         Op.newPage { now := 1, browserPages := [], freshPage := { url := "about:blank", valid := true } }])
        none true).1.currentPageId = some k ∧
      mapHas (closePageStep (run initState
        [Op.newPage { now := 0, browserPages := [], freshPage := { url := "about:blank", valid := true } },
         Op.newPage { now := 1, browserPages := [], freshPage := { url := "about:blank", valid := true } }])
        none true).1.pages k = true :=
  (closePage_current_reassigned
    [Op.newPage { now := 0, browserPages := [], freshPage := { url := "about:blank", valid := true } },
     Op.newPage { now := 1, browserPages := [], freshPage := { url := "about:blank", valid := true } }]
    "page_1" (by decide)).2.2 (by decide)

/-- C7: the page-resolution fallback chain is deterministic: a nonempty
explicit identifier present in pages is validated and returned when valid;
when it fails validation it is evicted and resolution proceeds exactly as
with no explicit identifier; an absent explicit identifier also falls
through; the currentPageId is then validated the same way (evicting it and
clearing currentPageId on failure); and when both fail or are absent a
fresh page is created, registered with empty buffers and subscriptions,
and made current. -/
theorem resolve_fallback_chain (env : Env) (st : SessionState) (pid : String) (p : Page) :
    (pid ≠ "" → mapGet st.pages pid = some p → p.valid = true →
      getOrCreatePage env st (some pid) = { st := st, page := p, pageId := pid }) ∧
    (pid ≠ "" → mapGet st.pages pid = some p → p.valid = false →
      getOrCreatePage env st (some pid) =
        resolveCurrent env { st with pages := mapDelete st.pages pid }) ∧
    (mapGet st.pages pid = none →
      getOrCreatePage env st (some pid) = resolveCurrent env st) ∧
    (getOrCreatePage env st none = resolveCurrent env st) ∧
    (∀ cid q, st.currentPageId = some cid → cid ≠ "" → mapGet st.pages cid = some q →
      q.valid = true → resolveCurrent env st = { st := st, page := q, pageId := cid }) ∧
    (∀ cid q, st.currentPageId = some cid → cid ≠ "" → mapGet st.pages cid = some q →
      q.valid = false → resolveCurrent env st =
        createFresh env { st with pages := mapDelete st.pages cid, currentPageId := none }) ∧
    (st.currentPageId = none → resolveCurrent env st = createFresh env st) ∧
    ((createFresh env st).pageId = mkPageId env.now ∧
      mapGet (createFresh env st).st.pages (mkPageId env.now) =
        some (createFresh env st).page ∧
      (createFresh env st).st.currentPageId = some (mkPageId env.now) ∧
      mapGet (createFresh env st).st.consoleMessages (mkPageId env.now) = some [] ∧
      mapGet (createFresh env st).st.networkRequests (mkPageId env.now) = some [] ∧
      mkPageId env.now ∈ (createFresh env st).st.subscriptions) := by
  refine ⟨?_, ?_, ?_, ?_, ?_, ?_, ?_, ?_⟩
  · intro hne hget hv
    simp [getOrCreatePage, hne, hget, hv]
  · intro hne hget hv
    simp [getOrCreatePage, hne, hget, hv]
  · intro hget
    by_cases hne : pid = ""
    · simp [getOrCreatePage, hne]
    · simp [getOrCreatePage, hne, hget]
  · rfl
  · intro cid q hcur hne hget hv
    simp [resolveCurrent, hcur, hne, hget, hv]
  · intro cid q hcur hne hget hv
    simp [resolveCurrent, hcur, hne, hget, hv]
  · intro hcur
    simp [resolveCurrent, hcur]
  · exact ⟨rfl, by simp [createFresh, mapGet_mapSet_self],
      rfl, by simp [createFresh, mapGet_mapSet_self],
      by simp [createFresh, mapGet_mapSet_self],
      by simp [createFresh]⟩

/-- Witness for C7: the four interesting hypotheses discharged at concrete
states: a valid explicit hit, an invalid explicit hit evicting the entry,
a valid current page, and an absent current page. -/
theorem resolve_fallback_chain_witness :
    getOrCreatePage { now := 9, browserPages := [], freshPage := { url := "about:blank", valid := true } }
      { pages := [("page_1", { url := "https://e.x", valid := true })],
        currentPageId := some "page_1",
        consoleMessages := [("page_1", [])],
        networkRequests := [("page_1", [])],
        subscriptions := ["page_1"] }
      (some "page_1") =
      { st :=
          { pages := [("page_1", { url := "https://e.x", valid := true })],
            currentPageId := some "page_1",
            consoleMessages := [("page_1", [])],
            networkRequests := [("page_1", [])],
            subscriptions := ["page_1"] },
        page := { url := "https://e.x", valid := true }, pageId := "page_1" } ∧
    getOrCreatePage { now := 9, browserPages := [], freshPage := { url := "about:blank", valid := true } }
      { pages := [("page_1", { url := "https://e.x", valid := false })],
        currentPageId := some "page_1",
        consoleMessages := [("page_1", [])],
        networkRequests := [("page_1", [])],
        subscriptions := ["page_1"] }
      (some "page_1") =
      resolveCurrent { now := 9, browserPages := [], freshPage := { url := "about:blank", valid := true } }
        { pages := [],
          currentPageId := some "page_1",
          consoleMessages := [("page_1", [])],
          networkRequests := [("page_1", [])],
          subscriptions := ["page_1"] } :=
  ⟨(resolve_fallback_chain
      { now := 9, browserPages := [], freshPage := { url := "about:blank", valid := true } }
      { pages := [("page_1", { url := "https://e.x", valid := true })],
        currentPageId := some "page_1",
        consoleMessages := [("page_1", [])],
        networkRequests := [("page_1", [])],
        subscriptions := ["page_1"] }
      "page_1" { url := "https://e.x", valid := true }).1 (by decide) (by decide) rfl,
   (resolve_fallback_chain
      { now := 9, browserPages := [], freshPage := { url := "about:blank", valid := true } }
      { pages := [("page_1", { url := "https://e.x", valid := false })],
        currentPageId := some "page_1",
        consoleMessages := [("page_1", [])],
        networkRequests := [("page_1", [])],
        subscriptions := ["page_1"] }
      "page_1" { url := "https://e.x", valid := false }).2.1 (by decide) (by decide) rfl⟩

/-- C3 (code bug evidence): the /new-page handler registers the page and
creates its empty buffers but installs no console/request/response
subscriptions, so a console event emitted by such a page is dropped and its
buffers stay empty forever; the resolution path (createFresh) does install
the subscriptions before returning, which shows the intent of the buffer
setup. -/
theorem newPage_loses_events (env : Env) (st : SessionState) (m : ConsoleMsg)
    (hnotsub : mkPageId env.now ∉ st.subscriptions) :
    ((newPageStep env st).1).subscriptions = st.subscriptions ∧
    mapGet ((newPageStep env st).1).consoleMessages (newPageStep env st).2 = some [] ∧
    deliverConsole (newPageStep env st).1 (newPageStep env st).2 m = (newPageStep env st).1 ∧
    (createFresh env st).pageId ∈ (createFresh env st).st.subscriptions := by
  refine ⟨rfl, by simp [newPageStep, mapGet_mapSet_self], ?_, by simp [createFresh]⟩
  unfold deliverConsole
  rw [if_neg]
  exact hnotsub

/-- Witness for C3: on the fresh daemon a /new-page page drops a console
event while keeping its registered empty buffer. -/
theorem newPage_loses_events_witness :
    deliverConsole
      (newPageStep { now := 0, browserPages := [], freshPage := { url := "about:blank", valid := true } } initState).1
      (newPageStep { now := 0, browserPages := [], freshPage := { url := "about:blank", valid := true } } initState).2
      { type := "log", text := "hello", timestamp := 3 } =
    (newPageStep { now := 0, browserPages := [], freshPage := { url := "about:blank", valid := true } } initState).1 :=
  (newPage_loses_events
    { now := 0, browserPages := [], freshPage := { url := "about:blank", valid := true } }
    initState { type := "log", text := "hello", timestamp := 3 } (by decide)).2.2.1

/-- C8 counterexample: two pages registered by /new-page during the same
millisecond (Date.now() = 0 for both) receive the same identifier, and the
second registration overwrites the first in the pages map, so only one
entry remains after two registrations. -/
theorem same_millisecond_page_ids_collide :
    (newPageStep { now := 0, browserPages := [], freshPage := { url := "about:blank", valid := true } }
        ((newPageStep { now := 0, browserPages := [], freshPage := { url := "about:blank", valid := true } } initState).1)).2 =
      (newPageStep { now := 0, browserPages := [], freshPage := { url := "about:blank", valid := true } } initState).2 ∧
    ((newPageStep { now := 0, browserPages := [], freshPage := { url := "about:blank", valid := true } }
        ((newPageStep { now := 0, browserPages := [], freshPage := { url := "about:blank", valid := true } } initState).1)).1).pages.length = 1 := by
  constructor
  · decide
  · decide

/-- C8 (amended): page identifiers are a deterministic function of the
creation time (page_ followed by the millisecond timestamp) on both
registration paths, and registrations at distinct timestamps receive
distinct identifiers; only same-millisecond registrations collide. -/
theorem page_ids_function_of_time (env1 env2 : Env) (st1 st2 : SessionState)
    (h : env1.now ≠ env2.now) :
    (newPageStep env1 st1).2 = mkPageId env1.now ∧
    (createFresh env1 st1).pageId = mkPageId env1.now ∧
    (newPageStep env1 st1).2 ≠ (newPageStep env2 st2).2 := by
  refine ⟨rfl, rfl, ?_⟩
  intro he
  exact h (mkPageId_inj he)

/-- Witness for C8 (amended): distinct milliseconds give distinct ids. -/
theorem page_ids_function_of_time_witness :
    (newPageStep { now := 0, browserPages := [], freshPage := { url := "about:blank", valid := true } } initState).2 ≠
    (newPageStep { now := 1, browserPages := [], freshPage := { url := "about:blank", valid := true } } initState).2 :=
  (page_ids_function_of_time
    { now := 0, browserPages := [], freshPage := { url := "about:blank", valid := true } }
    { now := 1, browserPages := [], freshPage := { url := "about:blank", valid := true } }
    initState initState (by decide)).2.2

end ChromeCli
